import Mathlib

/-!
Shallow embedding of the GTFS indexing-and-query core of this repository
(file `src/gtfs-cta.js`).  JavaScript numbers that carry exact data
(coordinates, distances, radii, limits) are modelled as rationals; `NaN`
and `undefined` are modelled as `none` of an `Option`.  JS `Map` and `Set`
are modelled as insertion-ordered association lists / duplicate-free lists,
matching their specified iteration order.  The module-level mutable state of
the build coordinator is modelled as an explicit state record together with
step functions for the synchronous sections of the code (the JS event loop
runs each synchronous section atomically).
-/

/-- JS `Map` modelled as an insertion-ordered association list.
`Map.prototype.set` overwrites an existing key in place (keeping its
original position in iteration order) and appends a new key at the end. -/
def mapSet {α : Type} (m : List (String × α)) (k : String) (v : α) :
    List (String × α) :=
  match m with
  | [] => [(k, v)]
  | (k', v') :: rest =>
      if k' = k then (k, v) :: rest else (k', v') :: mapSet rest k v

/-- JS `Map.prototype.get`: the value stored at `k`, `none` for `undefined`. -/
def mapGet? {α : Type} (m : List (String × α)) (k : String) : Option α :=
  match m with
  | [] => none
  | (k', v) :: rest => if k' = k then some v else mapGet? rest k

/-- Loop body of `parseCsvLine` (src/gtfs-cta.js lines 60-84): state is the
`inQuotes` flag, the current field `cur` and the fields pushed so far `out`.
A `"` inside quotes followed by another `"` emits one literal quote and skips
both; otherwise `"` toggles the quote flag.  A `,` outside quotes ends the
current field.  Everything else is appended to the current field. -/
def parseCsvChars : List Char → Bool → String → List String → List String
  | [], _, cur, out => out ++ [cur]
  | '"' :: '"' :: rest2, true, cur, out =>
      parseCsvChars rest2 true (cur.push '"') out
  | '"' :: rest, inQuotes, cur, out => parseCsvChars rest (!inQuotes) cur out
  | ',' :: rest, true, cur, out => parseCsvChars rest true (cur.push ',') out
  | ',' :: rest, false, cur, out => parseCsvChars rest false "" (out ++ [cur])
  | c :: rest, inQuotes, cur, out => parseCsvChars rest inQuotes (cur.push c) out

/-- `parseCsvLine` (src/gtfs-cta.js lines 60-84). -/
def parseCsvLine (line : String) : List String :=
  parseCsvChars line.toList false "" []

/-- All characters are decimal digits. -/
def allDigits (cs : List Char) : Bool := cs.all (fun c => c.isDigit)

/-- Numeric value of a run of decimal digits. -/
def digitsVal (cs : List Char) : Nat :=
  cs.foldl (fun n c => 10 * n + (c.toNat - 48)) 0

/-- Leading and trailing whitespace removed, as JS `Number` does before
parsing. -/
def trimChars (cs : List Char) : List Char :=
  ((cs.dropWhile (fun c => c.isWhitespace)).reverse.dropWhile
    (fun c => c.isWhitespace)).reverse

/-- Model of the JS `Number(string)` conversion restricted to the plain
decimal forms that occur in GTFS feeds: optional sign, integer digits,
optional `.` and fractional digits, with at least one digit overall.  As in
JS, the empty or all-whitespace string converts to `0`.  Anything else —
including the exotic forms this model leaves out (exponents, hex,
`Infinity`) — is `NaN`, represented as `none`. -/
def jsNumber (s : String) : Option ℚ :=
  let t := trimChars s.toList
  if t.isEmpty then some 0
  else
    let sb : Int × List Char :=
      match t with
      | '-' :: rest => (-1, rest)
      | '+' :: rest => (1, rest)
      | l => (1, l)
    let ip := sb.2.takeWhile (fun c => c.isDigit)
    let rest := sb.2.dropWhile (fun c => c.isDigit)
    match rest with
    | [] => if ip.isEmpty then none else some ((sb.1 * digitsVal ip : ℤ) : ℚ)
    | '.' :: fp =>
        if allDigits fp && (!ip.isEmpty || !fp.isEmpty) then
          some (mkRat (sb.1 * (digitsVal ip * 10 ^ fp.length + digitsVal fp))
            (10 ^ fp.length))
        else none
    | _ => none

/-- JS `Number` applied to a possibly-`undefined` string (`Number(undefined)`
is `NaN`). -/
def jsNumberOpt (o : Option String) : Option ℚ := o.bind jsNumber

/-- `row[i]` for a possibly-`undefined` column index: `undefined` when the
index is `undefined` or out of range. -/
def getCol (row : List String) (i : Option Nat) : Option String :=
  i.bind (fun n => row[n]?)

/-- `Object.fromEntries(cols.map((c, i) => [c, i]))` looked up at `name`:
with duplicate column names the LAST index wins, and a missing name is
`undefined`. -/
def colIndex (cols : List String) (name : String) : Option Nat :=
  ((cols.enum.filter (fun p => p.2 == name)).getLast?).map (fun p => p.1)

/-- JS truthiness of a possibly-`undefined` string: `undefined` and `""` are
falsy, every other string is truthy. -/
def truthyStr (o : Option String) : Bool :=
  match o with
  | some s => s != ""
  | none => false

/-- A record of `routeById` (src/gtfs-cta.js lines 111-116).  `route_type`
holds `Number(row[routeIdx.route_type])`; `none` models `NaN`. -/
structure RouteRec where
  route_id : String
  short_name : String
  long_name : String
  route_type : Option ℚ
deriving DecidableEq

/-- A record of `stopById` (src/gtfs-cta.js line 143). -/
structure StopRec where
  stop_id : String
  stop_name : String
  lat : ℚ
  lng : ℚ
  location_type : Option ℚ
deriving DecidableEq

/-- The Index returned by `buildGtfsIndex` (src/gtfs-cta.js lines 165-170). -/
structure GtfsIndex where
  updatedAt : Option String
  stopById : List (String × StopRec)
  routeById : List (String × RouteRec)
  stopToRoutes : List (String × List String)
deriving DecidableEq

/-- Routes phase of `buildGtfsIndex` (src/gtfs-cta.js lines 103-117): rows
without a truthy `route_id` are skipped; `route_short_name`/`route_long_name`
default to `""` via `|| ''`. -/
def routeRowStep (cols : List String) (m : List (String × RouteRec))
    (line : String) : List (String × RouteRec) :=
  let row := parseCsvLine line
  let rid := getCol row (colIndex cols "route_id")
  if truthyStr rid then
    mapSet m (rid.getD "")
      { route_id := rid.getD ""
        short_name := (getCol row (colIndex cols "route_short_name")).getD ""
        long_name := (getCol row (colIndex cols "route_long_name")).getD ""
        route_type := jsNumberOpt (getCol row (colIndex cols "route_type")) }
  else m

def buildRouteById (lines : List String) : List (String × RouteRec) :=
  lines.tail.foldl (routeRowStep (parseCsvLine (lines.headD ""))) []

/-- Trips phase of `buildGtfsIndex` (src/gtfs-cta.js lines 119-128): the
ephemeral `trip_id → route_id` map, keeping only rows where both ids are
truthy. -/
def buildTripToRoute (lines : List String) : List (String × String) :=
  let cols := parseCsvLine (lines.headD "")
  lines.tail.foldl (fun m line =>
    let row := parseCsvLine line
    let trip := getCol row (colIndex cols "trip_id")
    let rid := getCol row (colIndex cols "route_id")
    if truthyStr trip && truthyStr rid then mapSet m (trip.getD "") (rid.getD "")
    else m) []

/-- Stops phase of `buildGtfsIndex` (src/gtfs-cta.js lines 130-144): rows
missing a truthy id or name, or with a non-finite coordinate, are skipped;
`location_type` defaults to `0` when the raw field is falsy. -/
def buildStopById (lines : List String) : List (String × StopRec) :=
  let cols := parseCsvLine (lines.headD "")
  lines.tail.foldl (fun m line =>
    let row := parseCsvLine line
    let sid := getCol row (colIndex cols "stop_id")
    let sname := getCol row (colIndex cols "stop_name")
    let latq := jsNumberOpt (getCol row (colIndex cols "stop_lat"))
    let lonq := jsNumberOpt (getCol row (colIndex cols "stop_lon"))
    let locRaw := getCol row (colIndex cols "location_type")
    let loc := if truthyStr locRaw then jsNumberOpt locRaw else some 0
    match latq, lonq with
    | some la, some lo =>
        if truthyStr sid && truthyStr sname then
          mapSet m (sid.getD "")
            { stop_id := sid.getD "", stop_name := sname.getD ""
              lat := la, lng := lo, location_type := loc }
        else m
    | _, _ => m) []

/-- The per-stop route set update (src/gtfs-cta.js line 162):
`if (set.size < 12) set.add(route_id)`, where `Set.add` is a no-op on an
already-present element and otherwise appends in insertion order. -/
def addCapped (s : List String) (r : String) : List String :=
  if s.length < 12 then (if r ∈ s then s else s ++ [r]) else s

/-- One row of the stop-times loop of `buildGtfsIndex` (src/gtfs-cta.js
lines 150-156): `some (stop_id, route_id)` when the row has truthy trip and
stop ids and the trip resolves to a truthy route id, `none` when the row is
skipped. -/
def resolveStRow (tripToRoute : List (String × String)) (cols : List String)
    (line : String) : Option (String × String) :=
  let row := parseCsvLine line
  let trip := getCol row (colIndex cols "trip_id")
  let sid := getCol row (colIndex cols "stop_id")
  if truthyStr trip && truthyStr sid then
    match mapGet? tripToRoute (trip.getD "") with
    | none => none
    | some r => if r = "" then none else some (sid.getD "", r)
  else none

/-- Effect of one stop-times row on the `stopToRoutes` map (src/gtfs-cta.js
lines 157-162). -/
def stApply (m : List (String × List String)) (pr : Option (String × String)) :
    List (String × List String) :=
  match pr with
  | none => m
  | some (s, r) => mapSet m s (addCapped ((mapGet? m s).getD []) r)

/-- Stop-times phase of `buildGtfsIndex` (src/gtfs-cta.js lines 146-163). -/
def buildStopToRoutes (tripToRoute : List (String × String))
    (lines : List String) : List (String × List String) :=
  let cols := parseCsvLine (lines.headD "")
  lines.tail.foldl (fun m line => stApply m (resolveStRow tripToRoute cols line)) []

/-- `buildGtfsIndex` (src/gtfs-cta.js lines 95-171) after the archive has
been read into per-table line lists; `updatedAt` is the value passed through
from `downloadZipIfNeeded`.  (In JS an empty table would crash on
destructuring; here an empty list yields an empty header, which no claim
exercises.) -/
def buildGtfsIndexCore (updatedAt : Option String)
    (routesLines tripsLines stopsLines stopTimesLines : List String) :
    GtfsIndex :=
  { updatedAt := updatedAt
    stopById := buildStopById stopsLines
    routeById := buildRouteById routesLines
    stopToRoutes := buildStopToRoutes (buildTripToRoute tripsLines) stopTimesLines }

/-- `classifyMode` (src/gtfs-cta.js lines 193-199); `none` models a `NaN`
route type, which compares unequal to every number as in JS. -/
def classifyMode (rt : Option ℚ) : String :=
  if rt = some 3 then "bus"
  else if rt = some 1 then "train"
  else if rt = some 2 then "rail"
  else "other"

/-- One element of the `routes` array built in `findNearby`
(src/gtfs-cta.js lines 212-217). -/
structure RouteOut where
  id : String
  shortName : String
  longName : String
  type : String
deriving DecidableEq

/-- The route payload attached per stop (src/gtfs-cta.js lines 212-217),
with the `||` fallbacks for empty names. -/
def routeOutOf (r : RouteRec) : RouteOut :=
  { id := r.route_id
    shortName :=
      if r.short_name != "" then r.short_name
      else if r.long_name != "" then r.long_name else "Route"
    longName :=
      if r.long_name != "" then r.long_name
      else if r.short_name != "" then r.short_name else ""
    type := classifyMode r.route_type }

/-- One element of the `out` array of `findNearby`
(src/gtfs-cta.js lines 219-227). -/
structure RankedStop where
  id : String
  name : String
  lat : ℚ
  lng : ℚ
  distanceMi : ℚ
  modes : List String
  routes : List RouteOut
deriving DecidableEq

/-- `Number(dMi.toFixed(2))`: the distance rounded to two decimal places
(JS `toFixed` rounds to nearest, ties away from zero; on the non-negative
distances produced here that matches rounding half up). -/
def round2 (q : ℚ) : ℚ := ((round (100 * q) : ℤ) : ℚ) / 100

/-- `Array.from(new Set(...))`: first occurrence of each element, in
insertion order. -/
def dedupStep (acc : List String) (r : String) : List String :=
  if r ∈ acc then acc else acc ++ [r]

def dedupKeepFirst (l : List String) : List String := l.foldl dedupStep []

/-- The loop body of `findNearby` for one stop (src/gtfs-cta.js lines
205-228): `none` when the stop is strictly farther than the clamped radius,
otherwise the record pushed onto `out`.  The haversine distance — a
transcendental function of the four coordinates — is abstracted as the
oracle `dist`; every claim below is proved for an arbitrary oracle, so it
holds for the real `haversineMiles` in particular. -/
def rankStop (idx : GtfsIndex) (dist : StopRec → ℚ) (radiusMi : ℚ)
    (stop : StopRec) : Option RankedStop :=
  let dMi := dist stop
  if dMi > radiusMi then none
  else
    let routeIds := (mapGet? idx.stopToRoutes stop.stop_id).getD []
    let routes :=
      (routeIds.filterMap (fun i => mapGet? idx.routeById i)).map routeOutOf
    some
      { id := stop.stop_id, name := stop.stop_name
        lat := stop.lat, lng := stop.lng
        distanceMi := round2 dMi
        modes := (dedupKeepFirst (routes.map (fun r => r.type))).filter
          (fun s => s != "")
        routes := routes.take 12 }

/-- The `out` array of `findNearby` before sorting: stops in `stopById`
iteration order that survive the radius filter. -/
def surviving (idx : GtfsIndex) (dist : StopRec → ℚ) (radiusMi : ℚ) :
    List RankedStop :=
  idx.stopById.filterMap (fun p => rankStop idx dist radiusMi p.2)

/-- Insertion step of a stable sort on `distanceMi`: the new element goes
after every element already placed at the same or a smaller distance. -/
def insertByD (x : RankedStop) : List RankedStop → List RankedStop
  | [] => [x]
  | y :: ys =>
      if y.distanceMi ≤ x.distanceMi then y :: insertByD x ys
      else x :: y :: ys

/-- `out.sort((a, b) => a.distanceMi - b.distanceMi)` (src/gtfs-cta.js line
229).  `Array.prototype.sort` is specified to be stable, and a stable sort
by a numeric key is extensionally unique, so this stable insertion sort is
an exact model. -/
def sortByD (l : List RankedStop) : List RankedStop :=
  l.foldl (fun acc x => insertByD x acc) []

/-- `1609.344`, the metres-per-mile constant of src/gtfs-cta.js line 203. -/
def METERS_PER_MILE : ℚ := mkRat 1609344 1000

/-- `Math.max(1, Math.min(50, Number(limit) || 12))` (src/gtfs-cta.js line
230): `Number(limit)` is the identity on the rational model of a JS number,
and `|| 12` replaces a falsy (zero) limit by the default `12`. -/
def effLimit (limit : ℚ) : ℚ :=
  max 1 (min 50 (if limit = 0 then 12 else limit))

/-- `findNearby` (src/gtfs-cta.js lines 201-231) after the awaited index is
available: the radius is converted from metres to miles and clamped to at
least `0.1`, stops are filtered by the distance oracle, sorted stably by
rounded distance, and truncated to the clamped limit (`Array.prototype.slice`
truncates a fractional end index toward zero, which on the clamped value
`≥ 1` is the floor). -/
def findNearbyOn (idx : GtfsIndex) (dist : StopRec → ℚ)
    (radiusMeters limit : ℚ) : Option String × List RankedStop :=
  let radiusMi := max (mkRat 1 10) (radiusMeters / METERS_PER_MILE)
  let sorted := sortByD (surviving idx dist radiusMi)
  (idx.updatedAt, sorted.take (⌊effLimit limit⌋).toNat)

/-- `ZIP_TTL_MS` (src/gtfs-cta.js line 10): 24 hours in milliseconds. -/
def ZIP_TTL_MS : Nat := 1000 * 60 * 60 * 24

/-- The module-level mutable state of the build coordinator
(src/gtfs-cta.js lines 173-175) plus an instrumentation counter of how many
`buildGtfsIndex` executions have been started (each such execution calls the
supplied fetch capability through `downloadZipIfNeeded`).  Cached indexes
and in-flight builds are identified by numeric tokens; the in-flight token
doubles as the identity of the shared promise. -/
structure CoordState where
  cache : Option Nat
  cacheLoadedAt : Nat
  inFlight : Option Nat
  buildsStarted : Nat
deriving DecidableEq

/-- The freshness test of `getIndex` (src/gtfs-cta.js line 178):
`cache && Date.now() - cacheLoadedAt < ZIP_TTL_MS`.  JS subtraction of a
later timestamp is negative hence below the TTL; truncated `Nat`
subtraction gives `0`, which is likewise below the TTL, so the model agrees
with JS on all inputs. -/
def coordFresh (st : CoordState) (now : Nat) : Bool :=
  st.cache.isSome && decide (now - st.cacheLoadedAt < ZIP_TTL_MS)

/-- What the synchronous section of `getIndex` hands back to its caller:
either the warm cached index, or (a reference to) the promise of a build —
the joined in-flight one or a newly started one. -/
inductive GetIndexOutcome where
  | cachedIdx (idx : Nat)
  | awaits (buildId : Nat)
deriving DecidableEq

/-- The synchronous section of `getIndex` (src/gtfs-cta.js lines 177-191),
which the JS event loop runs atomically: if the cache is fresh return it; if
a build is in flight return that promise; otherwise start a new build (one
`buildGtfsIndex` execution, hence one pass through `downloadZipIfNeeded`)
and record it as in flight. -/
def getIndexStep (st : CoordState) (now : Nat) : GetIndexOutcome × CoordState :=
  if coordFresh st now then (.cachedIdx (st.cache.getD 0), st)
  else
    match st.inFlight with
    | some b => (.awaits b, st)
    | none =>
        (.awaits st.buildsStarted,
          { st with inFlight := some st.buildsStarted
                    buildsStarted := st.buildsStarted + 1 })

/-- The fulfilment path of the build promise (src/gtfs-cta.js lines
182-189): the `.then` handler publishes the new index and its load time and
the `.finally` handler clears the in-flight marker. -/
def resolveBuild (st : CoordState) (idx : Nat) (now : Nat) : CoordState :=
  { st with cache := some idx, cacheLoadedAt := now, inFlight := none }

/-- The rejection path of the build promise (src/gtfs-cta.js lines
187-189): the `.then` handler is skipped, so the cache is untouched, and the
`.finally` handler still clears the in-flight marker. -/
def rejectBuild (st : CoordState) : CoordState :=
  { st with inFlight := none }

/-- The snapshot metadata sidecar (src/gtfs-cta.js lines 27-34, 56): `none`
fields model absent JSON keys. -/
structure SnapMeta where
  downloadedAt : Option Nat
  updatedAt : Option String
deriving DecidableEq

/-- The response of the supplied fetch capability. -/
structure FetchResp where
  ok : Bool
  status : Nat
  bytes : Nat
deriving DecidableEq

/-- Result of `downloadZipIfNeeded`: the cached archive reused with its
stored `updatedAt`, a freshly downloaded archive stamped with the current
ISO time, or a thrown download error carrying the upstream status. -/
inductive ZipOutcome where
  | reused (updatedAt : Option String)
  | downloaded (updatedAt : String) (bytes : Nat)
  | failed (status : Nat)
deriving DecidableEq

/-- The freshness test of `downloadZipIfNeeded` (src/gtfs-cta.js line 48):
`meta?.downloadedAt && Date.now() - meta.downloadedAt < ZIP_TTL_MS`; a
missing metadata file, a missing field, or the falsy timestamp `0` all fail
it.  As in `coordFresh`, truncated subtraction agrees with JS. -/
def zipFresh (meta : Option SnapMeta) (now : Nat) : Bool :=
  match meta with
  | some m =>
      match m.downloadedAt with
      | some d => decide (d ≠ 0) && decide (now - d < ZIP_TTL_MS)
      | none => false
  | none => false

/-- `meta.updatedAt || null` (src/gtfs-cta.js line 49). -/
def metaUpdatedAt (meta : Option SnapMeta) : Option String :=
  match meta with
  | some m =>
      match m.updatedAt with
      | some u => if u = "" then none else some u
      | none => none
  | none => none

/-- `downloadZipIfNeeded` (src/gtfs-cta.js lines 45-58) over the relevant
state: the metadata read from disk, whether the archive file exists, the
clock, the response the fetch capability would give, and the ISO timestamp
for `new Date()`.  The second component counts how many times the fetch
capability is invoked on this call. -/
def downloadZipIfNeeded (meta : Option SnapMeta) (zipExists : Bool)
    (now : Nat) (resp : FetchResp) (nowIso : String) : ZipOutcome × Nat :=
  if zipFresh meta now && zipExists then (.reused (metaUpdatedAt meta), 0)
  else if resp.ok then (.downloaded nowIso resp.bytes, 1)
  else (.failed resp.status, 1)

/-- The comparator key order of `out.sort((a, b) => a.distanceMi - b.distanceMi)`. -/
def distLe (a b : RankedStop) : Prop := a.distanceMi ≤ b.distanceMi

/-- The route id a stop-times row contributes to stop `s`: the resolved
route id when the row survives the skips of src/gtfs-cta.js lines 150-156
and names stop `s`, `none` otherwise. -/
def stRowFor (tripToRoute : List (String × String)) (cols : List String)
    (s : String) (line : String) : Option String :=
  (resolveStRow tripToRoute cols line).bind
    (fun pr => if pr.1 = s then some pr.2 else none)

/-- The resolved route ids for stop `s`, in stop-time row order. -/
def resolvedFor (tripToRoute : List (String × String)) (cols : List String)
    (lines : List String) (s : String) : List String :=
  lines.filterMap (stRowFor tripToRoute cols s)

/-! ### Concrete data for witnesses and counterexamples -/

/-- A minimal routes table: one route `R1` of type 3 (bus). -/
def wRoutesLines : List String :=
  ["route_id,route_short_name,route_long_name,route_type", "R1,22,Clark,3"]

/-- A trips table whose only trip resolves to `RX`, a route id that is not
in the routes table. -/
def wTripsXLines : List String := ["route_id,trip_id", "RX,trip1"]

/-- A trips table whose only trip resolves to the existing route `R1`. -/
def wTripsLines : List String := ["route_id,trip_id", "R1,trip1"]

/-- A stops table with the single stop `S1`. -/
def wStopsLines : List String :=
  ["stop_id,stop_name,stop_lat,stop_lon,location_type",
   "S1,Stop One,41.88,-87.63,0"]

/-- A stop-times table linking `trip1` to `S1`. -/
def wStopTimesLines : List String := ["trip_id,stop_id", "trip1,S1"]

/-- The index built from the tables whose trip points at the unknown route
`RX`. -/
def wIdxX : GtfsIndex :=
  buildGtfsIndexCore (some "u") wRoutesLines wTripsXLines wStopsLines
    wStopTimesLines

/-- The index built from the consistent tables. -/
def wIdx : GtfsIndex :=
  buildGtfsIndexCore (some "u") wRoutesLines wTripsLines wStopsLines
    wStopTimesLines

/-- The record `findNearby` produces for `S1` from `wIdx` under the zero
distance oracle. -/
def wRanked : RankedStop :=
  { id := "S1", name := "Stop One", lat := mkRat 4188 100
    lng := mkRat (-8763) 100, distanceMi := 0, modes := ["bus"]
    routes := [{ id := "R1", shortName := "22", longName := "Clark"
                 type := "bus" }] }

/-- An index with two stops and no routes, for exercising the limit
handling. -/
def wIdx2 : GtfsIndex :=
  { updatedAt := none
    stopById :=
      [("A", { stop_id := "A", stop_name := "A stop", lat := 0, lng := 0
               location_type := some 0 }),
       ("B", { stop_id := "B", stop_name := "B stop", lat := 0, lng := 0
               location_type := some 0 })]
    routeById := []
    stopToRoutes := [] }

/-! ### Helper lemmas -/

theorem mapGet?_mapSet_self {α : Type} (m : List (String × α)) (k : String)
    (v : α) : mapGet? (mapSet m k v) k = some v := by
  induction m with
  | nil => simp [mapSet, mapGet?]
  | cons p rest ih =>
      obtain ⟨k', v'⟩ := p
      by_cases h : k' = k
      · simp [mapSet, mapGet?, h]
      · simp [mapSet, mapGet?, h, ih]

theorem mapGet?_mapSet_ne {α : Type} (m : List (String × α)) (k k' : String)
    (v : α) (h : k' ≠ k) : mapGet? (mapSet m k v) k' = mapGet? m k' := by
  induction m with
  | nil => simp [mapSet, mapGet?, Ne.symm h]
  | cons p rest ih =>
      obtain ⟨k₀, v₀⟩ := p
      by_cases h0 : k₀ = k
      · subst h0
        simp [mapSet, mapGet?, Ne.symm h]
      · by_cases h1 : k₀ = k'
        · simp [mapSet, mapGet?, h0, h1, h]
        · simp [mapSet, mapGet?, h0, h1, ih]

theorem mapGet?_mem {α : Type} (m : List (String × α)) (k : String) (v : α)
    (h : mapGet? m k = some v) : (k, v) ∈ m := by
  induction m with
  | nil => simp [mapGet?] at h
  | cons p rest ih =>
      obtain ⟨k₀, v₀⟩ := p
      by_cases h0 : k₀ = k
      · subst h0
        simp [mapGet?] at h
        simp [h]
      · simp [mapGet?, h0] at h
        exact List.mem_cons_of_mem _ (ih h)

theorem mapSet_mem {α : Type} (m : List (String × α)) (k : String) (v : α)
    (p : String × α) (h : p ∈ mapSet m k v) : p = (k, v) ∨ p ∈ m := by
  induction m with
  | nil => simpa [mapSet] using h
  | cons q rest ih =>
      obtain ⟨k₀, v₀⟩ := q
      by_cases h0 : k₀ = k
      · simp [mapSet, h0] at h
        rcases h with h | h
        · exact Or.inl h
        · exact Or.inr (List.mem_cons_of_mem _ h)
      · simp [mapSet, h0] at h
        rcases h with h | h
        · exact Or.inr (by simp [h])
        · rcases ih h with h' | h'
          · exact Or.inl h'
          · exact Or.inr (List.mem_cons_of_mem _ h')

theorem mem_insertByD (x a : RankedStop) (l : List RankedStop) :
    a ∈ insertByD x l ↔ a = x ∨ a ∈ l := by
  induction l with
  | nil => simp [insertByD]
  | cons y ys ih =>
      by_cases h : y.distanceMi ≤ x.distanceMi
      · simp [insertByD, h, ih]
        tauto
      · simp [insertByD, h]

theorem insertByD_perm (x : RankedStop) (l : List RankedStop) :
    List.Perm (insertByD x l) (x :: l) := by
  induction l with
  | nil => simp [insertByD]
  | cons y ys ih =>
      by_cases h : y.distanceMi ≤ x.distanceMi
      · simp only [insertByD, if_pos h]
        exact (ih.cons y).trans (List.Perm.swap x y ys)
      · simp [insertByD, h]

theorem sortFold_perm :
    ∀ (l acc : List RankedStop),
      List.Perm (l.foldl (fun a z => insertByD z a) acc) (acc ++ l) := by
  intro l
  induction l with
  | nil => simp
  | cons x xs ih =>
      intro acc
      have h1 : (x :: xs).foldl (fun a z => insertByD z a) acc
          = xs.foldl (fun a z => insertByD z a) (insertByD x acc) := rfl
      rw [h1]
      exact ((ih (insertByD x acc)).trans
        ((insertByD_perm x acc).append_right xs)).trans List.perm_middle.symm

theorem sortByD_perm (l : List RankedStop) : List.Perm (sortByD l) l := by
  simpa [sortByD] using sortFold_perm l []

theorem pairwise_insertByD (x : RankedStop) (l : List RankedStop)
    (h : List.Pairwise distLe l) : List.Pairwise distLe (insertByD x l) := by
  induction l with
  | nil => simp [insertByD, distLe]
  | cons y ys ih =>
      rcases List.pairwise_cons.1 h with ⟨hy, hys⟩
      by_cases hle : y.distanceMi ≤ x.distanceMi
      · simp only [insertByD, if_pos hle]
        refine List.pairwise_cons.2 ⟨?_, ih hys⟩
        intro z hz
        rcases (mem_insertByD x z ys).1 hz with rfl | hz'
        · exact hle
        · exact hy z hz'
      · simp only [insertByD, if_neg hle]
        refine List.pairwise_cons.2 ⟨?_, h⟩
        intro z hz
        have hxy : x.distanceMi ≤ y.distanceMi := le_of_lt (lt_of_not_le hle)
        rcases List.mem_cons.1 hz with rfl | hz'
        · exact hxy
        · exact le_trans hxy (hy z hz')

theorem sortFold_pairwise :
    ∀ (l acc : List RankedStop), List.Pairwise distLe acc →
      List.Pairwise distLe (l.foldl (fun a z => insertByD z a) acc) := by
  intro l
  induction l with
  | nil => intro acc h; exact h
  | cons x xs ih => intro acc h; exact ih _ (pairwise_insertByD x acc h)

theorem sortByD_pairwise (l : List RankedStop) :
    List.Pairwise distLe (sortByD l) :=
  sortFold_pairwise l [] (by simp)

theorem filter_insertByD (x : RankedStop) (d : ℚ) :
    ∀ l : List RankedStop, List.Pairwise distLe l →
      (insertByD x l).filter (fun r => decide (r.distanceMi = d)) =
        if x.distanceMi = d then
          l.filter (fun r => decide (r.distanceMi = d)) ++ [x]
        else l.filter (fun r => decide (r.distanceMi = d)) := by
  intro l
  induction l with
  | nil =>
      intro _
      by_cases hx : x.distanceMi = d <;> simp [insertByD, List.filter, hx]
  | cons y ys ih =>
      intro h
      rcases List.pairwise_cons.1 h with ⟨hy, hys⟩
      by_cases hle : y.distanceMi ≤ x.distanceMi
      · simp only [insertByD, if_pos hle]
        by_cases hyd : y.distanceMi = d <;>
          by_cases hxd : x.distanceMi = d <;>
            simp [List.filter_cons, hyd, hxd, ih hys]
      · have hxy : x.distanceMi < y.distanceMi := lt_of_not_le hle
        simp only [insertByD, if_neg hle]
        by_cases hxd : x.distanceMi = d
        · have hnil : (y :: ys).filter (fun r => decide (r.distanceMi = d)) = [] := by
            rw [List.filter_eq_nil_iff]
            intro z hz
            have hlt : d < z.distanceMi := by
              rcases List.mem_cons.1 hz with rfl | hz'
              · exact hxd ▸ hxy
              · exact lt_of_lt_of_le (hxd ▸ hxy) (hy z hz')
            simp only [decide_eq_true_eq]
            intro hzd
            rw [hzd] at hlt
            exact lt_irrefl d hlt
          simp [List.filter_cons, hxd, hnil]
        · simp [List.filter_cons, hxd]

theorem filter_sortFold (d : ℚ) :
    ∀ (l acc : List RankedStop), List.Pairwise distLe acc →
      (l.foldl (fun a z => insertByD z a) acc).filter
          (fun r => decide (r.distanceMi = d)) =
        acc.filter (fun r => decide (r.distanceMi = d)) ++
          l.filter (fun r => decide (r.distanceMi = d)) := by
  intro l
  induction l with
  | nil => intro acc _; simp
  | cons x xs ih =>
      intro acc h
      have step := ih (insertByD x acc) (pairwise_insertByD x acc h)
      have h1 : ((x :: xs).foldl (fun a z => insertByD z a) acc).filter
            (fun r => decide (r.distanceMi = d))
          = (xs.foldl (fun a z => insertByD z a) (insertByD x acc)).filter
            (fun r => decide (r.distanceMi = d)) := rfl
      rw [h1, step, filter_insertByD x d acc h]
      by_cases hxd : x.distanceMi = d <;>
        simp [List.filter_cons, hxd]

theorem sortByD_filter (l : List RankedStop) (d : ℚ) :
    (sortByD l).filter (fun r => decide (r.distanceMi = d)) =
      l.filter (fun r => decide (r.distanceMi = d)) := by
  simpa [sortByD] using filter_sortFold d l [] (by simp)

theorem addCapped_take (acc : List String) (r : String) :
    addCapped (acc.take 12) r = (dedupStep acc r).take 12 := by
  by_cases hmem : r ∈ acc.take 12
  · have hr : r ∈ acc := List.mem_of_mem_take hmem
    simp [addCapped, dedupStep, hmem, hr]
  · by_cases hlen : acc.length < 12
    · have hall : acc.take 12 = acc := List.take_of_length_le (le_of_lt hlen)
      rw [hall] at hmem ⊢
      have hall2 : (acc ++ [r]).take 12 = acc ++ [r] :=
        List.take_of_length_le (by simp; omega)
      simp [addCapped, dedupStep, hmem, hlen, hall2]
    · have h12 : (acc.take 12).length = 12 := by
        simp [List.length_take]
        omega
      have hnotlt : ¬(acc.take 12).length < 12 := by omega
      have e1 : addCapped (acc.take 12) r = acc.take 12 := by
        unfold addCapped
        rw [if_neg hnotlt]
      by_cases hr : r ∈ acc
      · have e2 : dedupStep acc r = acc := by
          unfold dedupStep
          rw [if_pos hr]
        rw [e1, e2]
      · have e2 : dedupStep acc r = acc ++ [r] := by
          unfold dedupStep
          rw [if_neg hr]
        have e3 : (acc ++ [r]).take 12 = acc.take 12 :=
          List.take_append_of_le_length (by omega)
        rw [e1, e2, e3]

theorem addCapped_foldl :
    ∀ (l acc : List String),
      List.foldl addCapped (acc.take 12) l = (List.foldl dedupStep acc l).take 12 := by
  intro l
  induction l with
  | nil => intro acc; rfl
  | cons r rs ih =>
      intro acc
      have h1 : List.foldl addCapped (acc.take 12) (r :: rs)
          = List.foldl addCapped (addCapped (acc.take 12) r) rs := rfl
      rw [h1, addCapped_take, ih (dedupStep acc r)]
      rfl

theorem dedupStep_nodup (acc : List String) (r : String) (h : acc.Nodup) :
    (dedupStep acc r).Nodup := by
  by_cases hm : r ∈ acc
  · simpa [dedupStep, hm] using h
  · simp [dedupStep, hm, List.nodup_append, h]

theorem dedupFold_nodup :
    ∀ (l acc : List String), acc.Nodup → (List.foldl dedupStep acc l).Nodup := by
  intro l
  induction l with
  | nil => intro acc h; exact h
  | cons r rs ih => intro acc h; exact ih _ (dedupStep_nodup acc r h)

theorem dedupKeepFirst_nodup (l : List String) : (dedupKeepFirst l).Nodup :=
  dedupFold_nodup l [] (by simp)

theorem stFold_proj (t : List (String × String)) (cols : List String) :
    ∀ (lines : List String) (m : List (String × List String)) (s : String),
      (mapGet? (lines.foldl (fun m line => stApply m (resolveStRow t cols line)) m)
          s).getD []
        = List.foldl addCapped ((mapGet? m s).getD []) (resolvedFor t cols lines s) := by
  intro lines
  induction lines with
  | nil => intro m s; rfl
  | cons line rest ih =>
      intro m s
      have hfold : ((line :: rest).foldl
            (fun m line => stApply m (resolveStRow t cols line)) m)
          = rest.foldl (fun m line => stApply m (resolveStRow t cols line))
              (stApply m (resolveStRow t cols line)) := rfl
      rw [hfold, ih _ s]
      rcases hres : resolveStRow t cols line with _ | ⟨s', r⟩
      · have hrow : stRowFor t cols s line = none := by
          simp [stRowFor, hres]
        simp [stApply, resolvedFor, List.filterMap_cons, hrow]
      · have happ : stApply m (some (s', r))
            = mapSet m s' (addCapped ((mapGet? m s').getD []) r) := rfl
        rw [happ]
        by_cases hs : s' = s
        · subst hs
          have hrow : stRowFor t cols s' line = some r := by
            simp [stRowFor, hres]
          rw [mapGet?_mapSet_self]
          simp [resolvedFor, List.filterMap_cons, hrow]
        · have hrow : stRowFor t cols s line = none := by
            simp [stRowFor, hres, hs]
          rw [mapGet?_mapSet_ne _ _ _ _ (fun hh => hs hh.symm)]
          simp [resolvedFor, List.filterMap_cons, hrow]

theorem stopToRoutes_spec (t : List (String × String)) (lines : List String)
    (s : String) :
    (mapGet? (buildStopToRoutes t lines) s).getD []
      = (dedupKeepFirst
          (resolvedFor t (parseCsvLine (lines.headD "")) lines.tail s)).take 12 := by
  have h0 : (mapGet? (buildStopToRoutes t lines) s).getD []
      = List.foldl addCapped (([] : List String).take 12)
          (resolvedFor t (parseCsvLine (lines.headD "")) lines.tail s) := by
    simpa [buildStopToRoutes] using
      stFold_proj t (parseCsvLine (lines.headD "")) lines.tail [] s
  rw [h0, addCapped_foldl]
  rfl

theorem routeRowStep_wf (cols : List String) :
    ∀ (rows : List String) (m : List (String × RouteRec)),
      (∀ p ∈ m, p.2.route_id = p.1) →
      ∀ p ∈ rows.foldl (routeRowStep cols) m, p.2.route_id = p.1 := by
  intro rows
  induction rows with
  | nil => intro m h p hp; exact h p hp
  | cons line rest ih =>
      intro m h p hp
      refine ih (routeRowStep cols m line) ?_ p hp
      intro q hq
      by_cases ht : truthyStr (getCol (parseCsvLine line) (colIndex cols "route_id"))
      · simp only [routeRowStep, if_pos ht] at hq
        rcases mapSet_mem _ _ _ q hq with rfl | hq'
        · rfl
        · exact h q hq'
      · simp only [routeRowStep, if_neg ht] at hq
        exact h q hq

theorem routeById_wf (lines : List String) :
    ∀ p ∈ buildRouteById lines, p.2.route_id = p.1 :=
  routeRowStep_wf _ lines.tail [] (by simp)

theorem round2_sub_abs (q : ℚ) : |round2 q - q| ≤ 1 / 200 := by
  have h := abs_sub_round (α := ℚ) (100 * q)
  have h2 : |((round (100 * q) : ℤ) : ℚ) - 100 * q|
      = |100 * q - ((round (100 * q) : ℤ) : ℚ)| := abs_sub_comm _ _
  have heq : round2 q - q = (((round (100 * q) : ℤ) : ℚ) - 100 * q) / 100 := by
    rw [round2]; ring
  rw [heq, abs_div, abs_of_pos (by norm_num : (0 : ℚ) < 100), h2]
  linarith

theorem round2_le_add (q : ℚ) : round2 q ≤ q + 1 / 200 := by
  have h := abs_le.1 (round2_sub_abs q)
  linarith [h.2]

theorem mem_surviving (idx : GtfsIndex) (dist : StopRec → ℚ) (rMi : ℚ)
    (r : RankedStop) :
    r ∈ surviving idx dist rMi ↔
      ∃ p ∈ idx.stopById, rankStop idx dist rMi p.2 = some r := by
  simp [surviving, List.mem_filterMap]

theorem rankStop_eq_some (idx : GtfsIndex) (dist : StopRec → ℚ) (rMi : ℚ)
    (stop : StopRec) (r : RankedStop)
    (h : rankStop idx dist rMi stop = some r) :
    dist stop ≤ rMi ∧ r.id = stop.stop_id ∧ r.distanceMi = round2 (dist stop) ∧
      r.routes = ((((mapGet? idx.stopToRoutes stop.stop_id).getD []).filterMap
        (fun i => mapGet? idx.routeById i)).map routeOutOf).take 12 := by
  by_cases hd : dist stop > rMi
  · simp [rankStop, hd] at h
  · simp only [rankStop, if_neg hd, Option.some.injEq] at h
    subst h
    exact ⟨le_of_not_lt hd, rfl, rfl, rfl⟩

/-! ### Claims -/

/-- C8: parsing the single CSV line `"5,000","He said ""hi""",42` yields
exactly the three fields `5,000`, `He said "hi"` and `42`: commas inside
double quotes are not separators, and a doubled quote inside a quoted field
produces one literal quote character. -/
theorem parseCsvLine_quoted_row :
    parseCsvLine "\"5,000\",\"He said \"\"hi\"\"\",42"
      = ["5,000", "He said \"hi\"", "42"] := by decide

/-- C4 counterexample: in the index built from tables whose trips row names
route `RX` that is absent from the routes table, `RX` is stored in the
stop-to-route-set mapping for `S1` even though it is not a key of the
route-by-id table — unresolvable-against-routes ids are not skipped during
index construction. -/
theorem stopRoutes_unresolved_cx :
    "RX" ∈ (mapGet? wIdxX.stopToRoutes "S1").getD [] ∧
      mapGet? wIdxX.routeById "RX" = none := by decide

/-- C4 amended: during index construction only route ids that fail to
resolve through the *trips* table are skipped; ids missing from the route
table are stored in the stop-to-route-set mapping and are dropped at query
time instead, so every route attached to a `findNearby` result resolves in
the route-by-id table (and is exactly the payload built from the resolved
record). -/
theorem findNearby_routes_resolved (u : Option String)
    (rl tl sl stl : List String) (dist : StopRec → ℚ)
    (radiusMeters limit : ℚ) :
    ∀ r ∈ (findNearbyOn (buildGtfsIndexCore u rl tl sl stl) dist radiusMeters
        limit).2,
      ∀ ro ∈ r.routes,
        ∃ rec, mapGet? (buildGtfsIndexCore u rl tl sl stl).routeById ro.id
            = some rec ∧ ro = routeOutOf rec := by
  intro r hr ro hro
  set idx := buildGtfsIndexCore u rl tl sl stl with hidx
  have e : (findNearbyOn idx dist radiusMeters limit).2
      = (sortByD (surviving idx dist
          (max (mkRat 1 10) (radiusMeters / METERS_PER_MILE)))).take
          (⌊effLimit limit⌋).toNat := rfl
  rw [e] at hr
  have hr2 : r ∈ sortByD (surviving idx dist
      (max (mkRat 1 10) (radiusMeters / METERS_PER_MILE))) :=
    List.mem_of_mem_take hr
  have hr3 : r ∈ surviving idx dist
      (max (mkRat 1 10) (radiusMeters / METERS_PER_MILE)) :=
    (sortByD_perm _).mem_iff.1 hr2
  obtain ⟨p, hp, hrank⟩ := (mem_surviving _ _ _ _).1 hr3
  obtain ⟨-, -, -, hroutes⟩ := rankStop_eq_some _ _ _ _ _ hrank
  rw [hroutes] at hro
  have hro2 := List.mem_of_mem_take hro
  obtain ⟨rec, hrecmem, hreco⟩ := List.mem_map.1 hro2
  obtain ⟨i, hi, hget⟩ := List.mem_filterMap.1 hrecmem
  have hkey : rec.route_id = i := by
    have hmem := mapGet?_mem _ _ _ hget
    have hwf : ∀ q ∈ idx.routeById, q.2.route_id = q.1 := by
      rw [hidx]
      exact routeById_wf rl
    exact hwf (i, rec) hmem
  refine ⟨rec, ?_, hreco.symm⟩
  rw [← hreco]
  have : (routeOutOf rec).id = rec.route_id := rfl
  rw [this, hkey]
  exact hget

/-- C5: for every stop, the route set built from the stop-times table is
exactly the first 12 distinct resolved route ids in stop-time row order
(`dedupKeepFirst` keeps first occurrences, `take 12` enforces the cap, and
additions beyond the cap are silent no-ops); in particular it holds at most
12 distinct ids. -/
theorem stopRoutes_cap (u : Option String) (rl tl sl stl : List String)
    (s : String) :
    (mapGet? (buildGtfsIndexCore u rl tl sl stl).stopToRoutes s).getD []
        = (dedupKeepFirst (resolvedFor (buildTripToRoute tl)
            (parseCsvLine (stl.headD "")) stl.tail s)).take 12 ∧
      ((mapGet? (buildGtfsIndexCore u rl tl sl stl).stopToRoutes s).getD
        []).length ≤ 12 ∧
      ((mapGet? (buildGtfsIndexCore u rl tl sl stl).stopToRoutes s).getD
        []).Nodup := by
  have e : (buildGtfsIndexCore u rl tl sl stl).stopToRoutes
      = buildStopToRoutes (buildTripToRoute tl) stl := rfl
  have h := stopToRoutes_spec (buildTripToRoute tl) stl s
  refine ⟨by rw [e, h], ?_, ?_⟩
  · rw [e, h, List.length_take]
    exact Nat.min_le_left _ _
  · rw [e, h]
    exact ((List.take_sublist _ _).nodup) (dedupKeepFirst_nodup _)

unseal Rat.mul Rat.add Rat.sub Rat.inv Rat.ofScientific in
/-- C4 witness: on the consistent concrete tables the route attached to the
returned stop resolves in the route table. -/
theorem findNearby_routes_resolved_wit :
    ∃ rec, mapGet? wIdx.routeById "R1" = some rec ∧
      ({ id := "R1", shortName := "22", longName := "Clark"
         type := "bus" } : RouteOut) = routeOutOf rec :=
  findNearby_routes_resolved (some "u") wRoutesLines wTripsLines wStopsLines
    wStopTimesLines (fun _ => 0) 1200 12 wRanked (by decide)
    { id := "R1", shortName := "22", longName := "Clark", type := "bus" }
    (by decide)

/-- C1: the synchronous sections of two `getIndex` calls that both observe a
stale cache and run before the build settles produce exactly one
`buildGtfsIndex` execution (hence one pass through the fetch capability):
the first call starts build `b` and the second returns the same in-flight
promise `b`, so both callers await the one build and observe its one result
or its one failure. -/
theorem getIndex_single_flight (st : CoordState) (now1 now2 : Nat)
    (hnofl : st.inFlight = none)
    (hstale1 : coordFresh st now1 = false)
    (hstale2 : coordFresh st now2 = false) :
    ∃ b, (getIndexStep st now1).1 = .awaits b ∧
      (getIndexStep (getIndexStep st now1).2 now2).1 = .awaits b ∧
      (getIndexStep (getIndexStep st now1).2 now2).2.buildsStarted
        = st.buildsStarted + 1 ∧
      (getIndexStep (getIndexStep st now1).2 now2).2.inFlight
        = some (st.buildsStarted) := by
  have h1 : getIndexStep st now1
      = (.awaits st.buildsStarted,
          { st with inFlight := some st.buildsStarted
                    buildsStarted := st.buildsStarted + 1 }) := by
    rw [getIndexStep, hstale1, hnofl]
    rfl
  have hstale2' : coordFresh
      { st with inFlight := some st.buildsStarted
                buildsStarted := st.buildsStarted + 1 } now2 = false := by
    simpa [coordFresh] using hstale2
  have h2 : getIndexStep
      { st with inFlight := some st.buildsStarted
                buildsStarted := st.buildsStarted + 1 } now2
      = (.awaits st.buildsStarted,
          { st with inFlight := some st.buildsStarted
                    buildsStarted := st.buildsStarted + 1 }) := by
    rw [getIndexStep, hstale2']
    rfl
  refine ⟨st.buildsStarted, ?_, ?_, ?_, ?_⟩ <;> rw [h1] <;> simp [h2]

/-- C1 witness: from the empty-cache initial state, two calls at times 5 and
7 share one build. -/
theorem getIndex_single_flight_spot :
    ∃ b, (getIndexStep ⟨none, 0, none, 0⟩ 5).1 = .awaits b ∧
      (getIndexStep (getIndexStep ⟨none, 0, none, 0⟩ 5).2 7).1 = .awaits b ∧
      (getIndexStep (getIndexStep ⟨none, 0, none, 0⟩ 5).2 7).2.buildsStarted
        = 0 + 1 ∧
      (getIndexStep (getIndexStep ⟨none, 0, none, 0⟩ 5).2 7).2.inFlight
        = some 0 :=
  getIndex_single_flight ⟨none, 0, none, 0⟩ 5 7 rfl (by decide) (by decide)

/-- C6: when a build settles, the `.finally` handler clears the in-flight
marker on both the fulfilment and the rejection path; fulfilment publishes
the new index, rejection leaves the cache untouched (no failed result is
cached), and a later stale call can start a fresh build. -/
theorem build_completion_state (st : CoordState) (idx now now2 : Nat)
    (hstale : coordFresh (rejectBuild st) now2 = false) :
    (resolveBuild st idx now).cache = some idx ∧
    (resolveBuild st idx now).cacheLoadedAt = now ∧
    (resolveBuild st idx now).inFlight = none ∧
    (rejectBuild st).inFlight = none ∧
    (rejectBuild st).cache = st.cache ∧
    (∃ b, (getIndexStep (rejectBuild st) now2).1 = .awaits b ∧
      (getIndexStep (rejectBuild st) now2).2.inFlight = some b ∧
      (getIndexStep (rejectBuild st) now2).2.buildsStarted
        = st.buildsStarted + 1) := by
  refine ⟨rfl, rfl, rfl, rfl, rfl, st.buildsStarted, ?_⟩
  have h2 : getIndexStep (rejectBuild st) now2
      = (.awaits st.buildsStarted,
          { st with inFlight := some st.buildsStarted
                    buildsStarted := st.buildsStarted + 1 }) := by
    rw [getIndexStep, hstale]
    rfl
  rw [h2]
  exact ⟨rfl, rfl, rfl⟩

/-- C6 witness: a failed build from the empty-cache state with an in-flight
marker set is cleared and the next call at time 3 restarts. -/
theorem build_completion_state_spot :
    (resolveBuild ⟨none, 0, some 0, 1⟩ 9 2).cache = some 9 ∧
    (resolveBuild ⟨none, 0, some 0, 1⟩ 9 2).cacheLoadedAt = 2 ∧
    (resolveBuild ⟨none, 0, some 0, 1⟩ 9 2).inFlight = none ∧
    (rejectBuild ⟨none, 0, some 0, 1⟩).inFlight = none ∧
    (rejectBuild ⟨none, 0, some 0, 1⟩).cache
      = (⟨none, 0, some 0, 1⟩ : CoordState).cache ∧
    (∃ b, (getIndexStep (rejectBuild ⟨none, 0, some 0, 1⟩) 3).1 = .awaits b ∧
      (getIndexStep (rejectBuild ⟨none, 0, some 0, 1⟩) 3).2.inFlight
        = some b ∧
      (getIndexStep (rejectBuild ⟨none, 0, some 0, 1⟩) 3).2.buildsStarted
        = 1 + 1) :=
  build_completion_state ⟨none, 0, some 0, 1⟩ 9 2 3 (by decide)

/-- C7: if metadata exists, the (truthy) `downloadedAt` is less than the
24-hour TTL ago and the archive file exists, `downloadZipIfNeeded` performs
no fetch and returns the cached archive with its stored `updatedAt`
unchanged; once the TTL has elapsed the call invokes the fetch capability
exactly once. -/
theorem downloadZip_ttl (m : SnapMeta) (d now : Nat) (zx : Bool)
    (resp : FetchResp) (nowIso : String) (hd : m.downloadedAt = some d) :
    (d ≠ 0 → now - d < ZIP_TTL_MS →
      downloadZipIfNeeded (some m) true now resp nowIso
        = (.reused (metaUpdatedAt (some m)), 0)) ∧
    (ZIP_TTL_MS ≤ now - d →
      (downloadZipIfNeeded (some m) zx now resp nowIso).2 = 1) := by
  constructor
  · intro h0 hlt
    have hfresh : zipFresh (some m) now = true := by
      simp [zipFresh, hd, h0, hlt]
    simp [downloadZipIfNeeded, hfresh]
  · intro hge
    have hfresh : zipFresh (some m) now = false := by
      simp [zipFresh, hd]
      intro
      omega
    by_cases hok : resp.ok <;> simp [downloadZipIfNeeded, hfresh, hok]

/-- C7 witness: with `downloadedAt = 5`, a call at time 6 reuses the cached
snapshot with zero fetches, and a call one TTL later fetches exactly once. -/
theorem downloadZip_ttl_spot :
    downloadZipIfNeeded (some ⟨some 5, some "2024-01-01"⟩) true 6
        ⟨true, 200, 3⟩ "iso"
      = (.reused (metaUpdatedAt (some ⟨some 5, some "2024-01-01"⟩)), 0) ∧
    (downloadZipIfNeeded (some ⟨some 5, some "2024-01-01"⟩) true
        (5 + ZIP_TTL_MS) ⟨true, 200, 3⟩ "iso").2 = 1 :=
  ⟨(downloadZip_ttl ⟨some 5, some "2024-01-01"⟩ 5 6 true ⟨true, 200, 3⟩
      "iso" rfl).1 (by decide) (by decide),
   (downloadZip_ttl ⟨some 5, some "2024-01-01"⟩ 5 (5 + ZIP_TTL_MS) true
      ⟨true, 200, 3⟩ "iso" rfl).2 (by simp)⟩

unseal Rat.mul Rat.add Rat.sub Rat.inv Rat.ofScientific in
/-- C2 counterexample: with two stops in range and requested `limit = 0`,
`findNearby` returns 2 stops, so the returned length is not bounded by the
requested limit, and `0` is not clamped into `[1, 50]` (which would cap the
result at one stop): the `|| 12` default applies instead. -/
theorem findNearby_limit_cx :
    ¬ ∀ (idx : GtfsIndex) (dist : StopRec → ℚ) (radiusMeters limit : ℚ),
        ((findNearbyOn idx dist radiusMeters limit).2.length : ℚ) ≤ limit := by
  intro h
  have h2 := h wIdx2 (fun _ => 0) 1200 0
  have hlen : (findNearbyOn wIdx2 (fun _ => 0) 1200 0).2.length = 2 := by
    decide
  rw [hlen] at h2
  norm_num at h2

/-- C2 amended: the result length is at most 50 for every requested limit;
a requested limit in `[1, 50]` bounds the length as stated; but a limit of
`0` is not clamped to `1` — it is falsy, so the default `12` applies and the
length is only bounded by `12`.  (Non-zero out-of-range limits are clamped
into `[1, 50]`.) -/
theorem findNearby_limit_clamped (idx : GtfsIndex) (dist : StopRec → ℚ)
    (radiusMeters limit : ℚ) :
    (findNearbyOn idx dist radiusMeters limit).2.length ≤ 50 ∧
    (limit = 0 → (findNearbyOn idx dist radiusMeters limit).2.length ≤ 12) ∧
    (∀ n : ℕ, 1 ≤ n → n ≤ 50 → limit = (n : ℚ) →
      (findNearbyOn idx dist radiusMeters limit).2.length ≤ n) := by
  have e : (findNearbyOn idx dist radiusMeters limit).2
      = (sortByD (surviving idx dist
          (max (mkRat 1 10) (radiusMeters / METERS_PER_MILE)))).take
          (⌊effLimit limit⌋).toNat := rfl
  have hlen : (findNearbyOn idx dist radiusMeters limit).2.length
      ≤ (⌊effLimit limit⌋).toNat := by
    rw [e, List.length_take]
    exact Nat.min_le_left _ _
  refine ⟨?_, ?_, ?_⟩
  · have h2 : effLimit limit ≤ (50 : ℚ) := by
      unfold effLimit
      exact max_le (by norm_num) (min_le_left _ _)
    have h3 : ⌊effLimit limit⌋ ≤ (50 : ℤ) := by
      have h4 := Int.floor_le_floor h2
      simpa using h4
    have h5 : (⌊effLimit limit⌋).toNat ≤ 50 := Int.toNat_le.2 (by exact_mod_cast h3)
    exact le_trans hlen h5
  · intro h0
    have heff : effLimit limit = 12 := by
      rw [effLimit, if_pos h0]
      norm_num
    rw [heff] at hlen
    simpa using hlen
  · intro n h1 h50 hlim
    have hne : limit ≠ 0 := by
      rw [hlim]
      have : n ≠ 0 := by omega
      exact_mod_cast this
    have heff : effLimit limit = (n : ℚ) := by
      rw [effLimit, if_neg hne, hlim, min_eq_right (by exact_mod_cast h50),
        max_eq_right (by exact_mod_cast h1)]
    rw [heff] at hlen
    simpa [Int.floor_natCast] using hlen

unseal Rat.mul Rat.add Rat.sub Rat.inv Rat.ofScientific in
/-- C2 witness: with requested limit 3 the result has at most 3 stops and at
most 50. -/
theorem findNearby_limit_clamped_spot :
    (findNearbyOn wIdx2 (fun _ => 0) 1200 3).2.length ≤ 3 ∧
      (findNearbyOn wIdx2 (fun _ => 0) 1200 3).2.length ≤ 50 :=
  ⟨(findNearby_limit_clamped wIdx2 (fun _ => 0) 1200 3).2.2 3 (by norm_num)
      (by norm_num) (by norm_num),
   (findNearby_limit_clamped wIdx2 (fun _ => 0) 1200 3).1⟩

/-- C3: the radius is converted from metres to miles (divide by 1609.344)
and clamped to at least 0.1 mi; every returned stop comes from an index
entry whose oracle distance is at most the clamped radius, its reported
`distanceMi` is the rounded distance and hence at most the clamped radius
plus the 0.005 rounding tolerance; and every index stop strictly beyond the
clamped radius is excluded by the filter. -/
theorem findNearby_radius_filter (idx : GtfsIndex) (dist : StopRec → ℚ)
    (radiusMeters limit : ℚ) :
    (∀ r ∈ (findNearbyOn idx dist radiusMeters limit).2,
      ∃ p ∈ idx.stopById, r.id = p.2.stop_id ∧
        dist p.2 ≤ max (mkRat 1 10) (radiusMeters / METERS_PER_MILE) ∧
        r.distanceMi = round2 (dist p.2) ∧
        r.distanceMi
          ≤ max (mkRat 1 10) (radiusMeters / METERS_PER_MILE) + 1 / 200) ∧
    (∀ p ∈ idx.stopById,
      max (mkRat 1 10) (radiusMeters / METERS_PER_MILE) < dist p.2 →
      rankStop idx dist (max (mkRat 1 10) (radiusMeters / METERS_PER_MILE))
        p.2 = none) := by
  constructor
  · intro r hr
    have e : (findNearbyOn idx dist radiusMeters limit).2
        = (sortByD (surviving idx dist
            (max (mkRat 1 10) (radiusMeters / METERS_PER_MILE)))).take
            (⌊effLimit limit⌋).toNat := rfl
    rw [e] at hr
    have hr2 := List.mem_of_mem_take hr
    have hr3 := (sortByD_perm _).mem_iff.1 hr2
    obtain ⟨p, hp, hrank⟩ := (mem_surviving _ _ _ _).1 hr3
    obtain ⟨hdist, hid, hdmi, -⟩ := rankStop_eq_some _ _ _ _ _ hrank
    refine ⟨p, hp, hid, hdist, hdmi, ?_⟩
    rw [hdmi]
    exact le_trans (round2_le_add _) (add_le_add_right hdist _)
  · intro p hp hlt
    simp [rankStop, hlt]

unseal Rat.mul Rat.add Rat.sub Rat.inv Rat.ofScientific in
/-- C3 witness: the stop returned from the concrete index satisfies the
radius bound at the default 1200 m radius. -/
theorem findNearby_radius_filter_spot :
    ∃ p ∈ wIdx.stopById, wRanked.id = p.2.stop_id ∧
      (fun _ => (0 : ℚ)) p.2 ≤ max (mkRat 1 10) (1200 / METERS_PER_MILE) ∧
      wRanked.distanceMi = round2 ((fun _ => (0 : ℚ)) p.2) ∧
      wRanked.distanceMi ≤ max (mkRat 1 10) (1200 / METERS_PER_MILE) + 1 / 200 :=
  (findNearby_radius_filter wIdx (fun _ => 0) 1200 12).1 wRanked (by decide)

/-- C9: the stops returned by `findNearby` are sorted ascending by their
`distanceMi` key, and within each distance class the returned stops are an
initial segment of the surviving stops in index iteration order (the sort is
stable), so the result is deterministic for a fixed index. -/
theorem findNearby_sorted_stable (idx : GtfsIndex) (dist : StopRec → ℚ)
    (radiusMeters limit : ℚ) :
    List.Pairwise distLe (findNearbyOn idx dist radiusMeters limit).2 ∧
    ∀ d : ℚ, ∃ rest,
      ((findNearbyOn idx dist radiusMeters limit).2.filter
          (fun r => decide (r.distanceMi = d))) ++ rest
        = (surviving idx dist
            (max (mkRat 1 10) (radiusMeters / METERS_PER_MILE))).filter
            (fun r => decide (r.distanceMi = d)) := by
  have e : (findNearbyOn idx dist radiusMeters limit).2
      = (sortByD (surviving idx dist
          (max (mkRat 1 10) (radiusMeters / METERS_PER_MILE)))).take
          (⌊effLimit limit⌋).toNat := rfl
  constructor
  · rw [e]
    exact (sortByD_pairwise _).sublist (List.take_sublist _ _)
  · intro d
    refine ⟨((sortByD (surviving idx dist
        (max (mkRat 1 10) (radiusMeters / METERS_PER_MILE)))).drop
        (⌊effLimit limit⌋).toNat).filter (fun r => decide (r.distanceMi = d)),
        ?_⟩
    rw [e, ← List.filter_append, List.take_append_drop, sortByD_filter]

/-- C10: each returned stop's `distanceMi` is not the raw oracle distance
but that distance rounded to two decimal places, so it can differ from the
true distance by at most 0.005 mi, and the sort order the caller sees is the
order of these rounded values. -/
theorem findNearby_distance_rounded (idx : GtfsIndex) (dist : StopRec → ℚ)
    (radiusMeters limit : ℚ) :
    (∀ r ∈ (findNearbyOn idx dist radiusMeters limit).2,
      ∃ p ∈ idx.stopById, r.distanceMi = round2 (dist p.2) ∧
        |r.distanceMi - dist p.2| ≤ 1 / 200) ∧
    List.Pairwise distLe (findNearbyOn idx dist radiusMeters limit).2 := by
  have e : (findNearbyOn idx dist radiusMeters limit).2
      = (sortByD (surviving idx dist
          (max (mkRat 1 10) (radiusMeters / METERS_PER_MILE)))).take
          (⌊effLimit limit⌋).toNat := rfl
  constructor
  · intro r hr
    rw [e] at hr
    have hr2 := List.mem_of_mem_take hr
    have hr3 := (sortByD_perm _).mem_iff.1 hr2
    obtain ⟨p, hp, hrank⟩ := (mem_surviving _ _ _ _).1 hr3
    obtain ⟨-, -, hdmi, -⟩ := rankStop_eq_some _ _ _ _ _ hrank
    refine ⟨p, hp, hdmi, ?_⟩
    rw [hdmi]
    exact round2_sub_abs _
  · rw [e]
    exact (sortByD_pairwise _).sublist (List.take_sublist _ _)

unseal Rat.mul Rat.add Rat.sub Rat.inv Rat.ofScientific in
/-- C10 witness: the concrete returned stop's `distanceMi` is the rounded
oracle distance, within 0.005. -/
theorem findNearby_distance_rounded_spot :
    ∃ p ∈ wIdx.stopById, wRanked.distanceMi = round2 ((fun _ => (0 : ℚ)) p.2) ∧
      |wRanked.distanceMi - (fun _ => (0 : ℚ)) p.2| ≤ 1 / 200 :=
  (findNearby_distance_rounded wIdx (fun _ => 0) 1200 12).1 wRanked (by decide)
